import Mathlib

/-!
Shallow embedding of the two price-provider clients of this repository
(src/birdeye.py and src/dexscreener.py) and proofs about them.

Modelling conventions:
- Python `Decimal` and JSON numbers are modelled as `ℚ` (exact arithmetic).
  The CPython `float(...)` conversion inside the pool selector is modelled as
  the identity on `ℚ`; the claims under study concern the comparison logic,
  not IEEE-754 rounding.
- A JSON object field read with `.get(key, default)` is an `Option` field;
  a field read by direct indexing (always present in well-formed responses)
  is a plain field.
- HTTP exchanges are modelled by passing the response (or a map from address
  to response) as an explicit argument; each function also returns a log of
  the network calls it performed, so that "no network call is made" is a
  provable statement.
- Python dicts are association lists with in-place update.
-/

namespace Clients

/-- Modelled from the spec: the error taxonomy of custom_exceptions.py, which is
not under src/. `NoPositionsError` is the spec EmptyInput signal,
`InvalidSolanaAddress` is InvalidAddress, `InvalidTokens` carries an optional
token list (the code raises both `InvalidTokens()` and `InvalidTokens(lst)`),
`ValueError(NO_LIQUDITY)` is NoLiquidity, `TransactionNotFoundError` is
TransactionNotFound. -/
inductive Err where
  | noPositions : Err
  | invalidSolanaAddress (address : String) : Err
  | invalidTokens (tokens : Option (List String)) : Err
  | noLiquidity : Err
  | transactionNotFound : Err
deriving DecidableEq, Repr

/-- Modelled from the spec: the spec signal `UpstreamError` ("no further detail
available from a bulk failure") corresponds in the code to raising
`InvalidTokens()` with no token list. -/
def UpstreamError : Err := .invalidTokens none

/-- Modelled from the spec: `PriceInfo` of common.py (not under src/): price and
optional liquidity, both USD decimals. -/
structure PriceInfo where
  price : ℚ
  liquidity : Option ℚ
deriving DecidableEq, Repr

/-- The dynamically typed `symbol` field of a token overview: src/birdeye.py
passes the integer 0, src/dexscreener.py passes a string. -/
inductive SymVal where
  | str (s : String) : SymVal
  | num (n : ℤ) : SymVal
deriving DecidableEq, Repr

/-- Modelled from the spec: `TokenOverview` of common.py (not under src/). -/
structure TokenOverview where
  price : ℚ
  symbol : SymVal
  decimals : ℤ
  lastTradeUnixTime : ℤ
  liquidity : ℚ
  supply : ℚ
deriving DecidableEq, Repr

/-- The `liquidity` sub-object of a raw trading-pair record; its `usd` field is
read with a `.get` defaulting to 0. -/
structure Liq where
  usd : Option ℚ
deriving DecidableEq, Repr

/-- A raw trading-pair record of the per-token provider. `baseTokenAddress`
models the chained `.get` on `baseToken` (an absent link gives `none`);
`quoteTokenAddress` models the direct indexing into `quoteToken`;
`liquidity` models the optional `liquidity` sub-object; the remaining fields
are read with `.get` and a default. -/
structure Pair where
  baseTokenAddress : Option String
  quoteTokenAddress : String
  liquidity : Option Liq
  priceUsd : Option ℚ
  symbol : Option String
  decimals : Option ℤ
  lastTradeUnixTime : Option ℤ
  supply : Option ℚ
deriving DecidableEq, Repr

/-- An upstream response of the per-token provider: HTTP status and the `pairs`
array (`[]` also models an absent or null `pairs` key, which is equally falsy
in the source). -/
structure DexResponse where
  status : Nat
  pairs : List Pair
deriving DecidableEq, Repr

/-- One per-address record in the batch-provider response body: the code tests
key membership for `value` and `liquidity`, so each is an `Option`. -/
structure BEDetails where
  value : Option ℚ
  liquidity : Option ℚ
deriving DecidableEq, Repr

/-- A batch-provider response: HTTP status and the JSON object under the `data`
key, as an association list in JSON key order. -/
structure BEResponse where
  status : Nat
  data : List (String × BEDetails)
deriving DecidableEq, Repr

/-- Reading a key from a Python dict modelled as an association list. -/
def lookupAssoc {α : Type} : List (String × α) → String → Option α
  | [], _ => none
  | (k, v) :: rest, k0 => if k = k0 then some v else lookupAssoc rest k0

/-- Writing a key into a Python dict: replace in place if the key exists, else
append. -/
def updateAssoc {α : Type} : List (String × α) → String → α → List (String × α)
  | [], k, v => [(k, v)]
  | (k1, v1) :: rest, k, v =>
      if k1 = k then (k, v) :: rest else (k1, v1) :: updateAssoc rest k v

namespace DexScreener

/-- The selection condition of `find_largest_pool_with_sol`: base token is the
requested address and quote token is the native mint (src/dexscreener.py
line 193). -/
def poolMatches (solMint address : String) (e : Pair) : Bool :=
  e.baseTokenAddress = some address && e.quoteTokenAddress = solMint

/-- The liquidity value the selector compares (src/dexscreener.py line 194):
an absent `liquidity` object or an absent `usd` field both default to 0. -/
def liqUsd (e : Pair) : ℚ :=
  match e.liquidity with
  | none => 0
  | some L => L.usd.getD 0

/-- The loop of `find_largest_pool_with_sol`, threading the running pair of
maximal entry and maximal liquidity; `none` stands for the initial empty dict
entry. -/
def findState (solMint address : String) : List Pair → Option Pair × ℚ → Option Pair × ℚ
  | [], s => s
  | e :: rest, (maxEntry, maxLiq) =>
      if poolMatches solMint address e = true ∧ liqUsd e > maxLiq then
        findState solMint address rest (some e, liqUsd e)
      else
        findState solMint address rest (maxEntry, maxLiq)

/-- `find_largest_pool_with_sol` (src/dexscreener.py lines 187-198): running
maximum initialized to -1, strict greater-than comparison, returns the final
maximal entry (`none` models the empty dict returned when nothing matched). -/
def find_largest_pool_with_sol (solMint : String) (token_pairs : List Pair) (address : String) :
    Option Pair :=
  (findState solMint address token_pairs (none, -1)).1

/-- A sample raw pair record used by concrete witnesses: only the fields the
selector inspects are populated, plus a price to tell records apart. -/
def mkPair (base : Option String) (quote : String) (liq : Option ℚ) (price : Option ℚ) : Pair :=
  { baseTokenAddress := base, quoteTokenAddress := quote,
    liquidity := some { usd := liq }, priceUsd := price, symbol := none,
    decimals := none, lastTradeUnixTime := none, supply := none }

/-- The liquidity value computed in fetch_prices_dex (src/dexscreener.py
lines 145-146): `none` when the selected record is the empty dict or lacks a
`liquidity` key, else its `usd` field defaulting to 0. -/
def selectedLiquidity (solMint : String) (pairs : List Pair) (address : String) : Option ℚ :=
  match find_largest_pool_with_sol solMint pairs address with
  | none => none
  | some p =>
      match p.liquidity with
      | none => none
      | some L => some (L.usd.getD 0)

/-- The price computed in fetch_prices_dex (src/dexscreener.py line 148):
`priceUsd` of the selected record, defaulting to 0 (also when the selected
record is the empty dict). -/
def selectedPrice (solMint : String) (pairs : List Pair) (address : String) : ℚ :=
  match find_largest_pool_with_sol solMint pairs address with
  | none => 0
  | some p => p.priceUsd.getD 0

/-- The `PriceInfo` stored for one address in fetch_prices_dex line 149. -/
def dexPriceInfo (solMint : String) (r : DexResponse) (address : String) : PriceInfo :=
  { price := selectedPrice solMint r.pairs address,
    liquidity := selectedLiquidity solMint r.pairs address }

/-- The per-address loop of fetch_prices_dex (src/dexscreener.py lines
141-151), threading the `prices` dict, the `invalid_token_list` and the log of
network calls. Each iteration performs the `_call_api` sequence: per-address
validation (empty check, then the validity predicate), the GET, the
status-code check, then either records the price of the selected pool or
appends the address to the rejection list. -/
def fetchPricesDexLoop (valid : String → Bool) (solMint : String)
    (resp : String → DexResponse) :
    List String → List (String × PriceInfo) → List String → List String →
    Except Err (List (String × PriceInfo)) × List String
  | [], prices, invalid, calls =>
      (if invalid = [] then .ok prices else .error (.invalidTokens (some invalid)), calls)
  | address :: rest, prices, invalid, calls =>
      if address = "" then (.error .noPositions, calls)
      else if valid address = false then (.error (.invalidSolanaAddress address), calls)
      else if (resp address).status = 200 then
        if (resp address).pairs.isEmpty then
          fetchPricesDexLoop valid solMint resp rest prices (invalid ++ [address])
            (calls ++ [address])
        else
          fetchPricesDexLoop valid solMint resp rest
            (updateAssoc prices address (dexPriceInfo solMint (resp address) address))
            invalid (calls ++ [address])
      else (.error (.invalidTokens none), calls ++ [address])

/-- `fetch_prices_dex` (src/dexscreener.py lines 124-154): empty-list check,
then the sequential per-address loop. -/
def fetch_prices_dex (valid : String → Bool) (solMint : String)
    (resp : String → DexResponse) (token_addresses : List String) :
    Except Err (List (String × PriceInfo)) × List String :=
  if token_addresses = [] then (.error .noPositions, [])
  else fetchPricesDexLoop valid solMint resp token_addresses [] [] []

/-- The overview built from a selected pair record in src/dexscreener.py lines
173-184: the liquidity gate (an absent liquidity object, like a falsy value,
raises NoLiquidity), then the fields read off the selected record with their
source defaults. -/
def overviewFromPair (p : Pair) (address : String) : Except Err TokenOverview × List String :=
  match p.liquidity with
  | none => (.error .noLiquidity, [address])
  | some L =>
      if L.usd.getD 0 = 0 then (.error .noLiquidity, [address])
      else
        (.ok { price := p.priceUsd.getD 0, symbol := .str (p.symbol.getD ""),
               decimals := p.decimals.getD 0,
               lastTradeUnixTime := p.lastTradeUnixTime.getD 0,
               liquidity := L.usd.getD 0, supply := p.supply.getD 0 }, [address])

/-- `fetch_token_overview` of src/dexscreener.py (lines 156-185): validity
predicate first (line 167), then the `_call_api` sequence (empty-address
check, GET, status check), then the pairs check (TransactionNotFound on an
empty array), pool selection, the liquidity gate, and the fully populated
overview. An empty-dict selector result has no liquidity key, so it raises
NoLiquidity. -/
def fetch_token_overview (valid : String → Bool) (solMint : String)
    (resp : String → DexResponse) (address : String) :
    Except Err TokenOverview × List String :=
  if valid address = false then (.error (.invalidSolanaAddress address), [])
  else if address = "" then (.error .noPositions, [])
  else if (resp address).status = 200 then
    if (resp address).pairs.isEmpty then (.error .transactionNotFound, [address])
    else
      match find_largest_pool_with_sol solMint (resp address).pairs address with
      | none => (.error .noLiquidity, [address])
      | some p => overviewFromPair p address
  else (.error (.invalidTokens none), [address])

/-- The `prices` dict accumulated by the loop over a prefix of well-behaved
addresses. -/
def pricesFold (solMint : String) (resp : String → DexResponse)
    (addrs : List String) (m : List (String × PriceInfo)) : List (String × PriceInfo) :=
  addrs.foldl (fun m b =>
    if (resp b).pairs.isEmpty then m
    else updateAssoc m b (dexPriceInfo solMint (resp b) b)) m

/-- The rejection list that the loop accumulates over a list of well-behaved
addresses: exactly the addresses whose response carries no pairs. -/
def rejectedList (resp : String → DexResponse) (addrs : List String) : List String :=
  addrs.filter fun b => (resp b).pairs.isEmpty

end DexScreener

namespace BirdEye

/-- The loop over the response data items in fetch_prices (src/birdeye.py
lines 58-63): records carrying both a `value` and a `liquidity` key go into
the price mapping, the rest into the rejection list, in response order. -/
def fetchLoop : List (String × BEDetails) → List (String × PriceInfo) → List String →
    List (String × PriceInfo) × List String
  | [], prices, invalid => (prices, invalid)
  | (address, details) :: rest, prices, invalid =>
      match details.value, details.liquidity with
      | some v, some l =>
          fetchLoop rest (updateAssoc prices address { price := v, liquidity := some l }) invalid
      | none, _ => fetchLoop rest prices (invalid ++ [address])
      | some _, none => fetchLoop rest prices (invalid ++ [address])

/-- `fetch_prices` of src/birdeye.py (lines 36-67): empty-list check, one GET
(the second component counts HTTP calls), then on a 200 the iteration over
the response data with all-or-nothing aggregation of the rejection list; on a
non-200 status the bare `InvalidTokens()` with no detail. No per-address
validity check is performed. -/
def fetch_prices (token_addresses : List String) (resp : BEResponse) :
    Except Err (List (String × PriceInfo)) × Nat :=
  if token_addresses = [] then (.error .noPositions, 0)
  else if resp.status = 200 then
    (if (fetchLoop resp.data [] []).2 = [] then .ok (fetchLoop resp.data [] []).1
     else .error (.invalidTokens (some (fetchLoop resp.data [] []).2)), 1)
  else (.error (.invalidTokens none), 1)

/-- The per-address record read in fetch_token_overview line 91: a `.get` on
the data object whose default is the empty dict, which in this modelling is
the record with both keys absent. -/
def tokenData (resp : BEResponse) (address : String) : BEDetails :=
  (lookupAssoc resp.data address).getD { value := none, liquidity := none }

/-- `fetch_token_overview` of src/birdeye.py (lines 69-102): validity predicate
first, one GET, then on a 200 the per-address record is read from the data
object; a missing or empty record (`not token_data`, modelled as both modelled
keys absent) fails with `InvalidTokens([address])`; a falsy (absent or zero)
liquidity fails with the NoLiquidity ValueError; else the overview is built
with zero defaults for symbol, decimals, lastTradeUnixTime and supply. -/
def fetch_token_overview (valid : String → Bool) (address : String) (resp : BEResponse) :
    Except Err TokenOverview × Nat :=
  if valid address = false then (.error (.invalidSolanaAddress address), 0)
  else if resp.status = 200 then
    if (tokenData resp address).value = none ∧ (tokenData resp address).liquidity = none then
      (.error (.invalidTokens (some [address])), 1)
    else if (tokenData resp address).liquidity.getD 0 = 0 then (.error .noLiquidity, 1)
    else
      (.ok { price := (tokenData resp address).value.getD 0, symbol := .num 0, decimals := 0,
             lastTradeUnixTime := 0, liquidity := (tokenData resp address).liquidity.getD 0,
             supply := 0 }, 1)
  else (.error (.invalidTokens (some [address])), 1)

end BirdEye

theorem lookupAssoc_updateAssoc {α : Type} (m : List (String × α)) (k k0 : String) (v : α) :
    lookupAssoc (updateAssoc m k v) k0 =
      if k = k0 then some v else lookupAssoc m k0 := by
  induction m with
  | nil => by_cases h : k = k0 <;> simp [updateAssoc, lookupAssoc, h]
  | cons hd tl ih =>
      obtain ⟨k1, v1⟩ := hd
      by_cases h1 : k1 = k
      · subst h1
        by_cases h : k1 = k0 <;> simp [updateAssoc, lookupAssoc, h]
      · by_cases h2 : k1 = k0
        · subst h2
          have hk : ¬k = k1 := fun hk => h1 hk.symm
          simp [updateAssoc, lookupAssoc, h1, hk]
        · simp [updateAssoc, lookupAssoc, h1, h2, ih]

namespace DexScreener

theorem findState_cons_pos (solMint address : String) (e : Pair) (rest : List Pair)
    (acc : Option Pair) (m : ℚ) (hc : poolMatches solMint address e = true ∧ liqUsd e > m) :
    findState solMint address (e :: rest) (acc, m) =
      findState solMint address rest (some e, liqUsd e) := by
  simp only [findState]
  rw [if_pos hc]

theorem findState_cons_neg (solMint address : String) (e : Pair) (rest : List Pair)
    (acc : Option Pair) (m : ℚ) (hc : ¬(poolMatches solMint address e = true ∧ liqUsd e > m)) :
    findState solMint address (e :: rest) (acc, m) =
      findState solMint address rest (acc, m) := by
  simp only [findState]
  rw [if_neg hc]

theorem findState_append (solMint address : String) (l1 l2 : List Pair) (s : Option Pair × ℚ) :
    findState solMint address (l1 ++ l2) s =
      findState solMint address l2 (findState solMint address l1 s) := by
  induction l1 generalizing s with
  | nil => rfl
  | cons e rest ih =>
      obtain ⟨maxEntry, maxLiq⟩ := s
      by_cases h : poolMatches solMint address e = true ∧ liqUsd e > maxLiq
      · rw [List.cons_append, findState_cons_pos _ _ _ _ _ _ h,
            findState_cons_pos _ _ _ _ _ _ h, ih]
      · rw [List.cons_append, findState_cons_neg _ _ _ _ _ _ h,
            findState_cons_neg _ _ _ _ _ _ h, ih]

/-- Characterization of the selector loop result: the final entry either is the
unchanged accumulator and every match in the list is bounded by the running
maximum, or it is a match from the list strictly above the initial running
maximum that dominates every match in the list. -/
theorem findState_spec (solMint address : String) (l : List Pair) (acc : Option Pair) (m : ℚ) :
    ((findState solMint address l (acc, m)).1 = none →
        acc = none ∧ ∀ e ∈ l, poolMatches solMint address e = true → liqUsd e ≤ m) ∧
    (∀ r, (findState solMint address l (acc, m)).1 = some r →
        (acc = some r ∧ ∀ e ∈ l, poolMatches solMint address e = true → liqUsd e ≤ m) ∨
        (r ∈ l ∧ poolMatches solMint address r = true ∧ m < liqUsd r ∧
         ∀ e ∈ l, poolMatches solMint address e = true → liqUsd e ≤ liqUsd r)) := by
  induction l generalizing acc m with
  | nil =>
      exact ⟨fun h => ⟨h, by simp⟩, fun r hr => .inl ⟨hr, by simp⟩⟩
  | cons e rest ih =>
      by_cases hc : poolMatches solMint address e = true ∧ liqUsd e > m
      · constructor
        · intro h
          rw [findState_cons_pos _ _ _ _ _ _ hc] at h
          rcases (ih (some e) (liqUsd e)).1 h with ⟨h1, _⟩
          exact absurd h1 (by simp)
        · intro r hr
          rw [findState_cons_pos _ _ _ _ _ _ hc] at hr
          rcases (ih (some e) (liqUsd e)).2 r hr with ⟨he, hall⟩ | ⟨hmem, hm, hlt, hall⟩
          · have her : e = r := Option.some.inj he
            subst her
            refine .inr ⟨List.mem_cons_self _ _, hc.1, hc.2, ?_⟩
            intro e1 he1 hm1
            rcases List.mem_cons.mp he1 with h1 | h1
            · subst h1; exact le_refl _
            · exact hall e1 h1 hm1
          · refine .inr ⟨List.mem_cons_of_mem _ hmem, hm, lt_trans hc.2 hlt, ?_⟩
            intro e1 he1 hm1
            rcases List.mem_cons.mp he1 with h1 | h1
            · subst h1; exact le_of_lt hlt
            · exact hall e1 h1 hm1
      · constructor
        · intro h
          rw [findState_cons_neg _ _ _ _ _ _ hc] at h
          rcases (ih acc m).1 h with ⟨h1, h2⟩
          refine ⟨h1, ?_⟩
          intro e1 he1 hm1
          rcases List.mem_cons.mp he1 with h3 | h3
          · subst h3; exact le_of_not_lt (not_and.mp hc hm1)
          · exact h2 e1 h3 hm1
        · intro r hr
          rw [findState_cons_neg _ _ _ _ _ _ hc] at hr
          rcases (ih acc m).2 r hr with ⟨ha, hall⟩ | ⟨hmem, hm2, hlt, hall⟩
          · refine .inl ⟨ha, ?_⟩
            intro e1 he1 hm1
            rcases List.mem_cons.mp he1 with h3 | h3
            · subst h3; exact le_of_not_lt (not_and.mp hc hm1)
            · exact hall e1 h3 hm1
          · refine .inr ⟨List.mem_cons_of_mem _ hmem, hm2, hlt, ?_⟩
            intro e1 he1 hm1
            rcases List.mem_cons.mp he1 with h3 | h3
            · subst h3
              exact le_trans (le_of_not_lt (not_and.mp hc hm1)) (le_of_lt hlt)
            · exact hall e1 h3 hm1

theorem findState_no_match (solMint address : String) (l : List Pair) (s : Option Pair × ℚ)
    (h : ∀ e ∈ l, poolMatches solMint address e = false) :
    findState solMint address l s = s := by
  induction l with
  | nil => rfl
  | cons e rest ih =>
      obtain ⟨acc, m⟩ := s
      rw [findState_cons_neg]
      · exact ih fun e1 he1 => h e1 (List.mem_cons_of_mem _ he1)
      · intro hc
        rw [h e (List.mem_cons_self _ _)] at hc
        exact Bool.false_ne_true hc.1

theorem findState_keep (solMint address : String) (l : List Pair) (r : Pair) (M : ℚ)
    (h : ∀ e ∈ l, poolMatches solMint address e = true → liqUsd e ≤ M) :
    findState solMint address l (some r, M) = (some r, M) := by
  induction l with
  | nil => rfl
  | cons e rest ih =>
      rw [findState_cons_neg]
      · exact ih fun e1 he1 => h e1 (List.mem_cons_of_mem _ he1)
      · intro hc
        exact absurd (h e (List.mem_cons_self _ _) hc.1) (not_le_of_lt hc.2)

theorem findState_snd_lt (solMint address : String) (l : List Pair) (s : Option Pair × ℚ)
    (X : ℚ) (hs : s.2 < X) (h : ∀ e ∈ l, poolMatches solMint address e = true → liqUsd e < X) :
    (findState solMint address l s).2 < X := by
  induction l generalizing s with
  | nil => exact hs
  | cons e rest ih =>
      obtain ⟨acc, m⟩ := s
      by_cases hc : poolMatches solMint address e = true ∧ liqUsd e > m
      · rw [findState_cons_pos _ _ _ _ _ _ hc]
        exact ih (some e, liqUsd e) (h e (List.mem_cons_self _ _) hc.1)
          (fun e1 he1 => h e1 (List.mem_cons_of_mem _ he1))
      · rw [findState_cons_neg _ _ _ _ _ _ hc]
        exact ih (acc, m) hs (fun e1 he1 => h e1 (List.mem_cons_of_mem _ he1))

/-- Claim C3: for every list of raw trading-pair records and token address (with
real, non-negative liquidity values), the selector returns a record maximizing
liquidity among exactly the records whose base token is the requested address
and whose quote token is the native asset; a returned record always satisfies
both conditions, and the selector returns `none` exactly when no record
matches both conditions. -/
theorem find_largest_pool_with_sol_correct (solMint address : String)
    (token_pairs : List Pair) (hliq : ∀ e ∈ token_pairs, 0 ≤ liqUsd e) :
    (∀ r, find_largest_pool_with_sol solMint token_pairs address = some r →
        r ∈ token_pairs ∧ poolMatches solMint address r = true ∧
        ∀ e ∈ token_pairs, poolMatches solMint address e = true → liqUsd e ≤ liqUsd r) ∧
    (find_largest_pool_with_sol solMint token_pairs address = none ↔
        ∀ e ∈ token_pairs, poolMatches solMint address e = false) := by
  unfold find_largest_pool_with_sol
  refine ⟨?_, ?_, ?_⟩
  · intro r hr
    rcases (findState_spec solMint address token_pairs none (-1)).2 r hr with
      ⟨h1, _⟩ | ⟨hmem, hm, _, hall⟩
    · exact absurd h1 (by simp)
    · exact ⟨hmem, hm, hall⟩
  · intro h e he
    have h2 := ((findState_spec solMint address token_pairs none (-1)).1 h).2
    cases hb : poolMatches solMint address e with
    | false => rfl
    | true =>
        have h3 := h2 e he hb
        have h4 := hliq e he
        linarith
  · intro h
    rw [findState_no_match _ _ _ _ h]

/-- Witness for C3 at the spec example: pairs quoted in SOL with liquidity
5 and 9 and a pair quoted in OTHER with liquidity 100. -/
theorem find_largest_pool_with_sol_correct_witness :
    (∀ r, find_largest_pool_with_sol "SOL"
        [mkPair (some "T") "SOL" (some 5) (some 1), mkPair (some "T") "SOL" (some 9) (some 2),
         mkPair (some "T") "OTHER" (some 100) (some 3)] "T" = some r →
        r ∈ [mkPair (some "T") "SOL" (some 5) (some 1), mkPair (some "T") "SOL" (some 9) (some 2),
             mkPair (some "T") "OTHER" (some 100) (some 3)] ∧
        poolMatches "SOL" "T" r = true ∧
        ∀ e ∈ [mkPair (some "T") "SOL" (some 5) (some 1), mkPair (some "T") "SOL" (some 9) (some 2),
               mkPair (some "T") "OTHER" (some 100) (some 3)],
          poolMatches "SOL" "T" e = true → liqUsd e ≤ liqUsd r) ∧
    (find_largest_pool_with_sol "SOL"
        [mkPair (some "T") "SOL" (some 5) (some 1), mkPair (some "T") "SOL" (some 9) (some 2),
         mkPair (some "T") "OTHER" (some 100) (some 3)] "T" = none ↔
        ∀ e ∈ [mkPair (some "T") "SOL" (some 5) (some 1), mkPair (some "T") "SOL" (some 9) (some 2),
               mkPair (some "T") "OTHER" (some 100) (some 3)],
          poolMatches "SOL" "T" e = false) :=
  find_largest_pool_with_sol_correct "SOL" "T"
    [mkPair (some "T") "SOL" (some 5) (some 1), mkPair (some "T") "SOL" (some 9) (some 2),
     mkPair (some "T") "OTHER" (some 100) (some 3)]
    (by norm_num [List.forall_mem_cons, mkPair, liqUsd])

/-- Claim C4: tie-break through strict greater-than against a running maximum
initialized to -1: whenever the input decomposes as earlier records, a matching
record r, and later records, where every earlier match has strictly smaller
liquidity and every later match has liquidity at most that of r (in particular
when later matches tie with r), the selector returns exactly r — the first
record in input order attaining the maximal liquidity among matches. -/
theorem find_largest_pool_with_sol_tiebreak (solMint address : String)
    (pre post : List Pair) (r : Pair)
    (hmatch : poolMatches solMint address r = true) (hr0 : 0 ≤ liqUsd r)
    (hpre : ∀ e ∈ pre, poolMatches solMint address e = true → liqUsd e < liqUsd r)
    (hpost : ∀ e ∈ post, poolMatches solMint address e = true → liqUsd e ≤ liqUsd r) :
    find_largest_pool_with_sol solMint (pre ++ r :: post) address = some r := by
  unfold find_largest_pool_with_sol
  rw [findState_append]
  have hmP : (findState solMint address pre (none, -1)).2 < liqUsd r :=
    findState_snd_lt solMint address pre (none, -1) (liqUsd r) (by simp; linarith) hpre
  rcases hsp : findState solMint address pre (none, -1) with ⟨accP, mP⟩
  rw [hsp] at hmP
  rw [findState_cons_pos _ _ _ _ _ _ ⟨hmatch, hmP⟩,
      findState_keep _ _ _ _ _ hpost]

/-- Witness for C4 at the spec example: two SOL-quoted records with equal
liquidity 9; the selector returns the first of the two. -/
theorem find_largest_pool_with_sol_tiebreak_witness :
    find_largest_pool_with_sol "SOL"
      ([] ++ mkPair (some "T") "SOL" (some 9) (some 1) ::
        [mkPair (some "T") "SOL" (some 9) (some 2)]) "T" =
      some (mkPair (some "T") "SOL" (some 9) (some 1)) :=
  find_largest_pool_with_sol_tiebreak "SOL" "T" []
    [mkPair (some "T") "SOL" (some 9) (some 2)]
    (mkPair (some "T") "SOL" (some 9) (some 1))
    (by decide) (by norm_num [mkPair, liqUsd]) (by simp)
    (by norm_num [List.forall_mem_cons, mkPair, liqUsd])

theorem fetchPricesDexLoop_append (valid : String → Bool) (solMint : String)
    (resp : String → DexResponse) (pre l2 : List String)
    (prices : List (String × PriceInfo)) (invalid calls : List String)
    (h : ∀ b ∈ pre, b ≠ "" ∧ valid b = true ∧ (resp b).status = 200) :
    fetchPricesDexLoop valid solMint resp (pre ++ l2) prices invalid calls =
      fetchPricesDexLoop valid solMint resp l2 (pricesFold solMint resp pre prices)
        (invalid ++ pre.filter fun b => (resp b).pairs.isEmpty) (calls ++ pre) := by
  induction pre generalizing prices invalid calls with
  | nil => simp [pricesFold]
  | cons b pre ih =>
      obtain ⟨hb1, hb2, hb3⟩ := h b (List.mem_cons_self _ _)
      have h2 : ∀ x ∈ pre, x ≠ "" ∧ valid x = true ∧ (resp x).status = 200 :=
        fun x hx => h x (List.mem_cons_of_mem _ hx)
      simp only [List.cons_append, fetchPricesDexLoop, List.append_eq]
      rw [if_neg hb1, if_neg (by simp [hb2]), if_pos hb3]
      by_cases hp : (resp b).pairs.isEmpty
      · rw [if_pos hp, ih _ _ _ h2]
        have hp2 : (resp b).pairs = [] := by simpa using hp
        simp [pricesFold, List.filter_cons, hp, hp2, List.append_assoc]
      · rw [if_neg hp, ih _ _ _ h2]
        have hp2 : ¬(resp b).pairs = [] := by simpa using hp
        simp [pricesFold, List.filter_cons, hp, hp2, List.append_assoc]

theorem lookupAssoc_pricesFold (solMint : String) (resp : String → DexResponse)
    (addrs : List String) (m : List (String × PriceInfo)) (a : String) :
    lookupAssoc (pricesFold solMint resp addrs m) a =
      if a ∈ addrs ∧ (resp a).pairs.isEmpty = false
      then some (dexPriceInfo solMint (resp a) a)
      else lookupAssoc m a := by
  induction addrs generalizing m with
  | nil => simp [pricesFold]
  | cons b rest ih =>
      have hstep : pricesFold solMint resp (b :: rest) m =
          pricesFold solMint resp rest
            (if (resp b).pairs.isEmpty then m
             else updateAssoc m b (dexPriceInfo solMint (resp b) b)) := rfl
      rw [hstep, ih]
      by_cases hmem : a ∈ rest ∧ (resp a).pairs.isEmpty = false
      · rw [if_pos hmem, if_pos ⟨List.mem_cons_of_mem _ hmem.1, hmem.2⟩]
      · rw [if_neg hmem]
        by_cases hb : b = a
        · subst hb
          by_cases hp : (resp b).pairs.isEmpty
          · rw [if_pos hp, if_neg]
            intro hc
            rw [hp] at hc
            exact absurd hc.2 (by decide)
          · rw [if_neg hp, lookupAssoc_updateAssoc, if_pos rfl,
                if_pos ⟨List.mem_cons_self _ _, Bool.not_eq_true _ ▸ (by simpa using hp)⟩]
        · have hlhs :
              lookupAssoc (if (resp b).pairs.isEmpty then m
                else updateAssoc m b (dexPriceInfo solMint (resp b) b)) a =
                lookupAssoc m a := by
            by_cases hp : (resp b).pairs.isEmpty
            · rw [if_pos hp]
            · rw [if_neg hp, lookupAssoc_updateAssoc, if_neg hb]
          rw [hlhs, if_neg]
          intro hc
          rcases List.mem_cons.mp hc.1 with h3 | h3
          · exact hb h3.symm
          · exact hmem ⟨h3, hc.2⟩

/-- Closed form of fetch_prices_dex on a non-empty list of addresses that all
pass validation and all receive a 200 response: every address is called, and
the result is all-or-nothing on the rejection list. -/
theorem fetch_prices_dex_characterization (valid : String → Bool) (solMint : String)
    (resp : String → DexResponse) (token_addresses : List String)
    (hne : token_addresses ≠ [])
    (h : ∀ b ∈ token_addresses, b ≠ "" ∧ valid b = true ∧ (resp b).status = 200) :
    fetch_prices_dex valid solMint resp token_addresses =
      (if rejectedList resp token_addresses = []
       then .ok (pricesFold solMint resp token_addresses [])
       else .error (.invalidTokens (some (rejectedList resp token_addresses))),
       token_addresses) := by
  have key := fetchPricesDexLoop_append valid solMint resp token_addresses [] [] [] [] h
  rw [List.append_nil] at key
  unfold fetch_prices_dex
  rw [if_neg hne, key]
  simp only [fetchPricesDexLoop, List.nil_append, rejectedList]

/-- Claim C6: per-token provider all-or-nothing aggregation. For every
non-empty address list whose addresses all pass validation and whose HTTP
calls all return 200, fetch_prices_dex processes every address to completion
(the call log equals the whole input list); when at least one address had no
pairs it fails once, after the loop, with InvalidTokens carrying the complete
rejection list in input order; when none did, it succeeds. It never fails
fast on the first rejected address. -/
theorem fetch_prices_dex_all_or_nothing (valid : String → Bool) (solMint : String)
    (resp : String → DexResponse) (token_addresses : List String)
    (hne : token_addresses ≠ [])
    (h : ∀ b ∈ token_addresses, b ≠ "" ∧ valid b = true ∧ (resp b).status = 200) :
    (fetch_prices_dex valid solMint resp token_addresses).2 = token_addresses ∧
    (rejectedList resp token_addresses ≠ [] →
      (fetch_prices_dex valid solMint resp token_addresses).1 =
        .error (.invalidTokens (some (rejectedList resp token_addresses)))) ∧
    (rejectedList resp token_addresses = [] →
      (fetch_prices_dex valid solMint resp token_addresses).1 =
        .ok (pricesFold solMint resp token_addresses [])) := by
  rw [fetch_prices_dex_characterization valid solMint resp token_addresses hne h]
  refine ⟨rfl, ?_, ?_⟩
  · intro hf
    simp only [if_neg hf]
  · intro hf
    simp only [if_pos hf]

/-- Witness for C6: addresses A and B, both valid, both answered with a 200;
A has no pairs and B has one pair, so the whole call fails with the complete
rejection list containing exactly A, after both addresses were called. -/
theorem fetch_prices_dex_all_or_nothing_witness :
    (fetch_prices_dex (fun _ => true) "S"
      (fun a => if a = "A" then { status := 200, pairs := [] }
        else { status := 200, pairs := [mkPair (some "B") "S" (some 1) (some 2)] })
      ["A", "B"]).2 = ["A", "B"] ∧
    (fetch_prices_dex (fun _ => true) "S"
      (fun a => if a = "A" then { status := 200, pairs := [] }
        else { status := 200, pairs := [mkPair (some "B") "S" (some 1) (some 2)] })
      ["A", "B"]).1 = .error (.invalidTokens (some ["A"])) := by
  have h := fetch_prices_dex_all_or_nothing (fun _ => true) "S"
    (fun a => if a = "A" then { status := 200, pairs := [] }
      else { status := 200, pairs := [mkPair (some "B") "S" (some 1) (some 2)] })
    ["A", "B"] (by decide)
    (List.forall_mem_cons.mpr ⟨by decide, List.forall_mem_singleton.mpr (by decide)⟩)
  exact ⟨h.1, (h.2.1 (by decide)).trans (by rfl)⟩

/-- Claim C10: implicit edge case of fetch_prices_dex. Under the same
well-behaved hypotheses as C6, an address whose pairs list is non-empty but
contains no pair matching the selector conditions is never placed on the
rejection list, and on success the result maps it to the PriceInfo with price
0 and absent liquidity derived from the empty selector result. -/
theorem fetch_prices_dex_no_matching_pool (valid : String → Bool) (solMint : String)
    (resp : String → DexResponse) (token_addresses : List String) (a : String)
    (hne : token_addresses ≠ [])
    (h : ∀ b ∈ token_addresses, b ≠ "" ∧ valid b = true ∧ (resp b).status = 200)
    (hmem : a ∈ token_addresses)
    (hpairs : (resp a).pairs ≠ [])
    (hnomatch : find_largest_pool_with_sol solMint (resp a).pairs a = none) :
    (∀ l, (fetch_prices_dex valid solMint resp token_addresses).1 =
        .error (.invalidTokens (some l)) → a ∉ l) ∧
    (∀ m, (fetch_prices_dex valid solMint resp token_addresses).1 = .ok m →
        lookupAssoc m a = some { price := 0, liquidity := none }) := by
  rw [fetch_prices_dex_characterization valid solMint resp token_addresses hne h]
  by_cases hrej : rejectedList resp token_addresses = []
  · simp only [if_pos hrej]
    constructor
    · intro l hl
      exact absurd hl (by simp)
    · intro m hm
      have hm2 : m = pricesFold solMint resp token_addresses [] := by
        simpa using hm.symm
      subst hm2
      rw [lookupAssoc_pricesFold, if_pos ⟨hmem, by simpa using hpairs⟩]
      simp [dexPriceInfo, selectedPrice, selectedLiquidity, hnomatch]
  · simp only [if_neg hrej]
    constructor
    · intro l hl
      have hl2 : rejectedList resp token_addresses = l := by
        have := hl
        simp only [Except.error.injEq, Err.invalidTokens.injEq, Option.some.injEq] at this
        exact this
      subst hl2
      intro hin
      have := List.of_mem_filter hin
      exact hpairs (by simpa using this)
    · intro m hm
      exact absurd hm (by simp)

/-- Witness for C10: one valid address A whose 200 response has a single pair
quoted against OTHER rather than the native mint; the fetch succeeds and maps
A to price 0 with absent liquidity. -/
theorem fetch_prices_dex_no_matching_pool_witness :
    (∀ l, (fetch_prices_dex (fun _ => true) "S"
        (fun _ => { status := 200, pairs := [mkPair (some "A") "OTHER" (some 5) (some 1)] })
        ["A"]).1 = .error (.invalidTokens (some l)) → "A" ∉ l) ∧
    (∀ m, (fetch_prices_dex (fun _ => true) "S"
        (fun _ => { status := 200, pairs := [mkPair (some "A") "OTHER" (some 5) (some 1)] })
        ["A"]).1 = .ok m →
        lookupAssoc m "A" = some { price := 0, liquidity := none }) :=
  fetch_prices_dex_no_matching_pool (fun _ => true) "S"
    (fun _ => { status := 200, pairs := [mkPair (some "A") "OTHER" (some 5) (some 1)] })
    ["A"] "A" (by decide)
    (List.forall_mem_singleton.mpr (by decide))
    (by decide) (by decide) (by decide)

/-- Claim C8: for every valid address whose 200 response contains zero trading
pairs, the per-token overview fails with TransactionNotFound, a signal
distinct from every InvalidTokens value. -/
theorem fetch_token_overview_empty_pairs (valid : String → Bool) (solMint : String)
    (resp : String → DexResponse) (address : String)
    (h1 : valid address = true) (h2 : address ≠ "")
    (h3 : (resp address).status = 200) (h4 : (resp address).pairs = []) :
    fetch_token_overview valid solMint resp address =
      (.error .transactionNotFound, [address]) ∧
    (∀ tokens, Err.transactionNotFound ≠ Err.invalidTokens tokens) := by
  refine ⟨?_, fun tokens hcontra => by cases hcontra⟩
  unfold fetch_token_overview
  rw [if_neg (by simp [h1]), if_neg h2, if_pos h3, if_pos (by simp [h4])]

/-- Witness for C8: valid address A, 200 response with an empty pairs array. -/
theorem fetch_token_overview_empty_pairs_witness :
    fetch_token_overview (fun _ => true) "S" (fun _ => { status := 200, pairs := [] }) "A" =
      (.error .transactionNotFound, ["A"]) ∧
    (∀ tokens, Err.transactionNotFound ≠ Err.invalidTokens tokens) :=
  fetch_token_overview_empty_pairs (fun _ => true) "S"
    (fun _ => { status := 200, pairs := [] }) "A" rfl (by decide) rfl rfl

/-- Inversion of a successful per-token overview: success happens only in the
final branch, with a selected pair carrying a liquidity object whose usd value
is non-zero, and the overview fields taken from that pair. -/
theorem fetch_token_overview_dex_ok_inv (valid : String → Bool) (solMint : String)
    (resp : String → DexResponse) (address : String) (ov : TokenOverview)
    (h : (fetch_token_overview valid solMint resp address).1 = .ok ov) :
    ∃ p L, find_largest_pool_with_sol solMint (resp address).pairs address = some p ∧
      p.liquidity = some L ∧ L.usd.getD 0 ≠ 0 ∧
      ov = { price := p.priceUsd.getD 0, symbol := .str (p.symbol.getD ""),
             decimals := p.decimals.getD 0, lastTradeUnixTime := p.lastTradeUnixTime.getD 0,
             liquidity := L.usd.getD 0, supply := p.supply.getD 0 } := by
  by_cases h1 : valid address = false
  · rw [show fetch_token_overview valid solMint resp address =
        (.error (.invalidSolanaAddress address), []) from by
      unfold fetch_token_overview; rw [if_pos h1]] at h
    exact absurd h (by simp)
  by_cases h2 : address = ""
  · rw [show fetch_token_overview valid solMint resp address = (.error .noPositions, []) from by
      unfold fetch_token_overview; rw [if_neg h1, if_pos h2]] at h
    exact absurd h (by simp)
  by_cases h3 : (resp address).status = 200
  · by_cases h4 : (resp address).pairs.isEmpty
    · rw [show fetch_token_overview valid solMint resp address =
          (.error .transactionNotFound, [address]) from by
        unfold fetch_token_overview; rw [if_neg h1, if_neg h2, if_pos h3, if_pos h4]] at h
      exact absurd h (by simp)
    · rcases hf : find_largest_pool_with_sol solMint (resp address).pairs address with _ | p
      · rw [show fetch_token_overview valid solMint resp address =
            (.error .noLiquidity, [address]) from by
          unfold fetch_token_overview
          rw [if_neg h1, if_neg h2, if_pos h3, if_neg h4, hf]] at h
        exact absurd h (by simp)
      · rw [show fetch_token_overview valid solMint resp address =
            overviewFromPair p address from by
          unfold fetch_token_overview
          rw [if_neg h1, if_neg h2, if_pos h3, if_neg h4, hf]] at h
        rcases hL : p.liquidity with _ | L
        · rw [show overviewFromPair p address = (.error .noLiquidity, [address]) from by
            unfold overviewFromPair; rw [hL]] at h
          exact absurd h (by simp)
        · by_cases h5 : L.usd.getD 0 = 0
          · rw [show overviewFromPair p address = (.error .noLiquidity, [address]) from by
              unfold overviewFromPair; rw [hL]; simp [h5]] at h
            exact absurd h (by simp)
          · rw [show overviewFromPair p address =
                (.ok { price := p.priceUsd.getD 0, symbol := .str (p.symbol.getD ""),
                       decimals := p.decimals.getD 0,
                       lastTradeUnixTime := p.lastTradeUnixTime.getD 0,
                       liquidity := L.usd.getD 0, supply := p.supply.getD 0 },
                 [address]) from by
              unfold overviewFromPair; rw [hL]; simp [h5]] at h
            exact ⟨p, L, rfl, hL, h5, by simpa using h.symm⟩
  · rw [show fetch_token_overview valid solMint resp address =
        (.error (.invalidTokens none), [address]) from by
      unfold fetch_token_overview; rw [if_neg h1, if_neg h2, if_neg h3]] at h
    exact absurd h (by simp)

end DexScreener

namespace BirdEye

/-- Claim C1 is violated by the code, supporting a code_bug verdict: the batch
fetch_prices keys its result on the response data object, not on the requested
address list. With input containing only A and a 200 response whose data is
empty, it succeeds with an empty mapping, silently dropping A; with a 200
response keyed by the unrequested B it succeeds with a mapping whose only key
is B and still no entry for A. This contradicts the docstring promise of
"ensuring each token has a price" and the totality the claim states. -/
theorem fetch_prices_silent_partial_success :
    fetch_prices ["A"] { status := 200, data := [] } = (.ok [], 1) ∧
    fetch_prices ["A"]
        { status := 200, data := [("B", { value := some 1, liquidity := some 2 })] } =
      (.ok [("B", { price := 1, liquidity := some 2 })], 1) :=
  ⟨rfl, rfl⟩

/-- Claim C2 is refuted on the batch provider: fetch_prices performs no
per-address validity check at all. Under the all-rejecting validity predicate
the address BAD fails the predicate, yet fetch_prices raises no
InvalidSolanaAddress and still performs its HTTP call (call count 1),
returning success. -/
theorem fetch_prices_skips_validation :
    (fun _ : String => false) "BAD" = false ∧
    fetch_prices ["BAD"] { status := 200, data := [] } = (.ok [], 1) :=
  ⟨rfl, rfl⟩

/-- Claim C5 is refuted on the batch provider overview: on a non-200 status it
fails with InvalidTokens carrying the requested address, which is a different
signal from the no-detail UpstreamError. -/
theorem fetch_token_overview_non200_detail :
    (fetch_token_overview (fun _ => true) "A" { status := 500, data := [] }).1 =
      .error (.invalidTokens (some ["A"])) ∧
    Err.invalidTokens (some ["A"]) ≠ UpstreamError :=
  ⟨rfl, by simp [UpstreamError]⟩

/-- Inversion of a successful batch overview: success happens only in the final
branch, with the record liquidity non-zero and the overview built from zero
defaults plus the record values. -/
theorem fetch_token_overview_ok_inv (valid : String → Bool) (address : String)
    (resp : BEResponse) (ov : TokenOverview)
    (h : (fetch_token_overview valid address resp).1 = .ok ov) :
    (tokenData resp address).liquidity.getD 0 ≠ 0 ∧
    ov = { price := (tokenData resp address).value.getD 0, symbol := .num 0, decimals := 0,
           lastTradeUnixTime := 0, liquidity := (tokenData resp address).liquidity.getD 0,
           supply := 0 } := by
  unfold fetch_token_overview at h
  by_cases h1 : valid address = false
  · rw [if_pos h1] at h
    exact absurd h (by simp)
  rw [if_neg h1] at h
  by_cases h2 : resp.status = 200
  · rw [if_pos h2] at h
    by_cases h3 : (tokenData resp address).value = none ∧
        (tokenData resp address).liquidity = none
    · rw [if_pos h3] at h
      exact absurd h (by simp)
    rw [if_neg h3] at h
    by_cases h4 : (tokenData resp address).liquidity.getD 0 = 0
    · rw [if_pos h4] at h
      exact absurd h (by simp)
    rw [if_neg h4] at h
    exact ⟨h4, by simpa using h.symm⟩
  · rw [if_neg h2] at h
    exact absurd h (by simp)

/-- Claim C9: every successful batch-provider overview has symbol, decimals,
lastTradeUnixTime and supply populated with zero defaults, while price and
liquidity are taken from the upstream per-address record (with the source
defaults applied). -/
theorem fetch_token_overview_zero_defaults (valid : String → Bool) (address : String)
    (resp : BEResponse) (ov : TokenOverview)
    (h : (fetch_token_overview valid address resp).1 = .ok ov) :
    ov.symbol = .num 0 ∧ ov.decimals = 0 ∧ ov.lastTradeUnixTime = 0 ∧ ov.supply = 0 ∧
    ov.price = (tokenData resp address).value.getD 0 ∧
    ov.liquidity = (tokenData resp address).liquidity.getD 0 := by
  obtain ⟨h1, hov⟩ := fetch_token_overview_ok_inv valid address resp ov h
  subst hov
  exact ⟨rfl, rfl, rfl, rfl, rfl, rfl⟩

/-- Witness for C9 at a concrete 200 response carrying value 3 and liquidity 7
for address A. -/
theorem fetch_token_overview_zero_defaults_witness :
    ({ price := 3, symbol := .num 0, decimals := 0, lastTradeUnixTime := 0,
       liquidity := 7, supply := 0 } : TokenOverview).symbol = .num 0 ∧
    ({ price := 3, symbol := .num 0, decimals := 0, lastTradeUnixTime := 0,
       liquidity := 7, supply := 0 } : TokenOverview).decimals = 0 ∧
    ({ price := 3, symbol := .num 0, decimals := 0, lastTradeUnixTime := 0,
       liquidity := 7, supply := 0 } : TokenOverview).lastTradeUnixTime = 0 ∧
    ({ price := 3, symbol := .num 0, decimals := 0, lastTradeUnixTime := 0,
       liquidity := 7, supply := 0 } : TokenOverview).supply = 0 ∧
    ({ price := 3, symbol := .num 0, decimals := 0, lastTradeUnixTime := 0,
       liquidity := 7, supply := 0 } : TokenOverview).price =
      (tokenData { status := 200, data := [("A", { value := some 3, liquidity := some 7 })] }
        "A").value.getD 0 ∧
    ({ price := 3, symbol := .num 0, decimals := 0, lastTradeUnixTime := 0,
       liquidity := 7, supply := 0 } : TokenOverview).liquidity =
      (tokenData { status := 200, data := [("A", { value := some 3, liquidity := some 7 })] }
        "A").liquidity.getD 0 :=
  fetch_token_overview_zero_defaults (fun _ => true) "A"
    { status := 200, data := [("A", { value := some 3, liquidity := some 7 })] }
    { price := 3, symbol := .num 0, decimals := 0, lastTradeUnixTime := 0,
      liquidity := 7, supply := 0 } rfl

end BirdEye

/-- Claim C2 (amended): both providers check collection emptiness first, before
any network call, and fail with the EmptyInput signal. The overview operations
validate their single address with the validity predicate before any network
call, failing with InvalidAddress carrying the address. The per-token
fetch_prices validates each address before that address's own network call,
but only after the network calls for the earlier addresses have already been
performed. The batch fetch_prices performs no per-address validity check at
all: it always makes its network call on a non-empty list and never fails
with InvalidAddress. -/
theorem validation_gate_amended :
    (∀ resp : BEResponse, BirdEye.fetch_prices [] resp = (.error .noPositions, 0)) ∧
    (∀ (valid : String → Bool) (solMint : String) (resp : String → DexResponse),
        DexScreener.fetch_prices_dex valid solMint resp [] = (.error .noPositions, [])) ∧
    (∀ (valid : String → Bool) (address : String) (resp : BEResponse),
        valid address = false →
        BirdEye.fetch_token_overview valid address resp =
          (.error (.invalidSolanaAddress address), 0)) ∧
    (∀ (valid : String → Bool) (solMint : String) (resp : String → DexResponse)
        (address : String), valid address = false →
        DexScreener.fetch_token_overview valid solMint resp address =
          (.error (.invalidSolanaAddress address), [])) ∧
    (∀ (valid : String → Bool) (solMint : String) (resp : String → DexResponse)
        (pre : List String) (a : String) (rest : List String),
        (∀ b ∈ pre, b ≠ "" ∧ valid b = true ∧ (resp b).status = 200) →
        a ≠ "" → valid a = false →
        DexScreener.fetch_prices_dex valid solMint resp (pre ++ a :: rest) =
          (.error (.invalidSolanaAddress a), pre)) ∧
    (∀ (token_addresses : List String) (resp : BEResponse) (a : String),
        token_addresses ≠ [] →
        (BirdEye.fetch_prices token_addresses resp).2 = 1 ∧
        (BirdEye.fetch_prices token_addresses resp).1 ≠
          .error (.invalidSolanaAddress a)) := by
  refine ⟨fun resp => rfl, fun valid solMint resp => rfl, ?_, ?_, ?_, ?_⟩
  · intro valid address resp hv
    unfold BirdEye.fetch_token_overview
    rw [if_pos hv]
  · intro valid solMint resp address hv
    unfold DexScreener.fetch_token_overview
    rw [if_pos hv]
  · intro valid solMint resp pre a rest hpre ha1 ha2
    unfold DexScreener.fetch_prices_dex
    rw [if_neg (by simp), DexScreener.fetchPricesDexLoop_append valid solMint resp pre
      (a :: rest) [] [] [] hpre]
    simp only [DexScreener.fetchPricesDexLoop, List.nil_append]
    rw [if_neg ha1, if_pos ha2]
  · intro token_addresses resp a hne
    unfold BirdEye.fetch_prices
    rw [if_neg hne]
    by_cases h2 : resp.status = 200
    · rw [if_pos h2]
      refine ⟨rfl, ?_⟩
      by_cases h3 : (BirdEye.fetchLoop resp.data [] []).2 = []
      · rw [if_pos h3]
        simp
      · rw [if_neg h3]
        simp
    · rw [if_neg h2]
      exact ⟨rfl, by simp⟩

/-- Witness for the amended C2 at a concrete interleaving: the first address is
valid and gets its network call, the second address is invalid; the call fails
with InvalidAddress for the second address after one network call. -/
theorem validation_gate_amended_witness :
    DexScreener.fetch_prices_dex (fun b => b = "GOOD") "S"
      (fun _ => { status := 200, pairs := [] }) (["GOOD"] ++ "BAD" :: []) =
      (.error (.invalidSolanaAddress "BAD"), ["GOOD"]) :=
  validation_gate_amended.2.2.2.2.1 (fun b => b = "GOOD") "S"
    (fun _ => { status := 200, pairs := [] }) ["GOOD"] "BAD" []
    (List.forall_mem_singleton.mpr (by decide)) (by decide) (by decide)

/-- Claim C5 (amended): a non-success upstream status makes the batch
fetch_prices and all per-token operations fail with the no-detail
UpstreamError signal (the code raising InvalidTokens with no token list),
while the batch fetch_token_overview instead fails with InvalidTokens
carrying the requested address. -/
theorem upstream_error_amended :
    (∀ (token_addresses : List String) (resp : BEResponse),
        token_addresses ≠ [] → resp.status ≠ 200 →
        BirdEye.fetch_prices token_addresses resp = (.error UpstreamError, 1)) ∧
    (∀ (valid : String → Bool) (solMint : String) (resp : String → DexResponse)
        (a : String) (rest : List String),
        a ≠ "" → valid a = true → (resp a).status ≠ 200 →
        DexScreener.fetch_prices_dex valid solMint resp (a :: rest) =
          (.error UpstreamError, [a])) ∧
    (∀ (valid : String → Bool) (solMint : String) (resp : String → DexResponse)
        (address : String),
        valid address = true → address ≠ "" → (resp address).status ≠ 200 →
        DexScreener.fetch_token_overview valid solMint resp address =
          (.error UpstreamError, [address])) ∧
    (∀ (valid : String → Bool) (address : String) (resp : BEResponse),
        valid address = true → resp.status ≠ 200 →
        BirdEye.fetch_token_overview valid address resp =
          (.error (.invalidTokens (some [address])), 1)) := by
  refine ⟨?_, ?_, ?_, ?_⟩
  · intro token_addresses resp hne hst
    unfold BirdEye.fetch_prices
    rw [if_neg hne, if_neg hst]
    rfl
  · intro valid solMint resp a rest ha hv hst
    unfold DexScreener.fetch_prices_dex
    rw [if_neg (by simp)]
    simp only [DexScreener.fetchPricesDexLoop]
    rw [if_neg ha, if_neg (by simp [hv]), if_neg hst]
    simp [UpstreamError]
  · intro valid solMint resp address hv ha hst
    unfold DexScreener.fetch_token_overview
    rw [if_neg (by simp [hv]), if_neg ha, if_neg hst]
    rfl
  · intro valid address resp hv hst
    unfold BirdEye.fetch_token_overview
    rw [if_neg (by simp [hv]), if_neg hst]

/-- Witness for the amended C5: one valid address answered with a 500 makes the
per-token fetch_prices fail with the no-detail UpstreamError after its single
call. -/
theorem upstream_error_amended_witness :
    DexScreener.fetch_prices_dex (fun _ => true) "S"
      (fun _ => { status := 500, pairs := [] }) ("A" :: []) = (.error UpstreamError, ["A"]) :=
  upstream_error_amended.2.1 (fun _ => true) "S" (fun _ => { status := 500, pairs := [] })
    "A" [] (by decide) rfl (by decide)

/-- Claim C7: overview liquidity gate on both providers. When the fetched
record of the batch provider is non-empty but its liquidity is absent or zero,
the overview fails with NoLiquidity; when the per-token provider's selected
liquidity is absent or zero (for a valid address with a 200 response and a
non-empty pairs array), its overview fails with NoLiquidity; and neither
provider ever returns a successful TokenOverview with zero liquidity. -/
theorem no_liquidity_gate :
    (∀ (valid : String → Bool) (address : String) (resp : BEResponse),
        valid address = true → resp.status = 200 →
        ¬((BirdEye.tokenData resp address).value = none ∧
          (BirdEye.tokenData resp address).liquidity = none) →
        (BirdEye.tokenData resp address).liquidity.getD 0 = 0 →
        (BirdEye.fetch_token_overview valid address resp).1 = .error .noLiquidity) ∧
    (∀ (valid : String → Bool) (address : String) (resp : BEResponse) (ov : TokenOverview),
        (BirdEye.fetch_token_overview valid address resp).1 = .ok ov → ov.liquidity ≠ 0) ∧
    (∀ (valid : String → Bool) (solMint : String) (resp : String → DexResponse)
        (address : String),
        valid address = true → address ≠ "" → (resp address).status = 200 →
        (resp address).pairs ≠ [] →
        (DexScreener.selectedLiquidity solMint (resp address).pairs address).getD 0 = 0 →
        (DexScreener.fetch_token_overview valid solMint resp address).1 =
          .error .noLiquidity) ∧
    (∀ (valid : String → Bool) (solMint : String) (resp : String → DexResponse)
        (address : String) (ov : TokenOverview),
        (DexScreener.fetch_token_overview valid solMint resp address).1 = .ok ov →
        ov.liquidity ≠ 0) := by
  refine ⟨?_, ?_, ?_, ?_⟩
  · intro valid address resp hv hst hne hliq
    unfold BirdEye.fetch_token_overview
    rw [if_neg (by simp [hv]), if_pos hst, if_neg hne, if_pos hliq]
  · intro valid address resp ov h
    obtain ⟨h4, hov⟩ := BirdEye.fetch_token_overview_ok_inv valid address resp ov h
    subst hov
    exact h4
  · intro valid solMint resp address hv ha hst hpairs hliq
    have hie : ¬(resp address).pairs.isEmpty = true := by simpa using hpairs
    rcases hf : DexScreener.find_largest_pool_with_sol solMint (resp address).pairs address
      with _ | p
    · rw [show DexScreener.fetch_token_overview valid solMint resp address =
          (.error .noLiquidity, [address]) from by
        unfold DexScreener.fetch_token_overview
        rw [if_neg (by simp [hv]), if_neg ha, if_pos hst, if_neg hie, hf]]
    · rw [show DexScreener.fetch_token_overview valid solMint resp address =
          DexScreener.overviewFromPair p address from by
        unfold DexScreener.fetch_token_overview
        rw [if_neg (by simp [hv]), if_neg ha, if_pos hst, if_neg hie, hf]]
      rcases hL : p.liquidity with _ | L
      · rw [show DexScreener.overviewFromPair p address =
            (.error .noLiquidity, [address]) from by
          unfold DexScreener.overviewFromPair
          rw [hL]]
      · have h5 : L.usd.getD 0 = 0 := by
          simp only [DexScreener.selectedLiquidity, hf, hL] at hliq
          simpa using hliq
        rw [show DexScreener.overviewFromPair p address =
            (.error .noLiquidity, [address]) from by
          unfold DexScreener.overviewFromPair
          rw [hL]
          simp [h5]]
  · intro valid solMint resp address ov h
    obtain ⟨p, L, hf, hL, h5, hov⟩ :=
      DexScreener.fetch_token_overview_dex_ok_inv valid solMint resp address ov h
    subst hov
    exact h5

/-- Witness for C7: a 200 batch response whose record for address A carries a
value but a zero liquidity makes the batch overview fail with NoLiquidity. -/
theorem no_liquidity_gate_witness :
    (BirdEye.fetch_token_overview (fun _ => true) "A"
      { status := 200, data := [("A", { value := some 3, liquidity := some 0 })] }).1 =
      .error .noLiquidity :=
  no_liquidity_gate.1 (fun _ => true) "A"
    { status := 200, data := [("A", { value := some 3, liquidity := some 0 })] }
    rfl rfl (by decide) (by decide)

end Clients
